import Mathlib

/-!
Verification of the routing/dispatch engine of `MixedContentsManager`
(`eginotebooks/manager.py`): path decomposition, mount-table construction,
backend resolution, per-operation dispatch, response rewriting, root
aggregation and the cross-mount guard.  Python strings are modelled as
lists of characters, Python dict records as a structure of optional
fields, and the external backends (the pluggable contents managers and
the default `LargeFileManager`) as abstract functions.
-/

namespace EGI

/-- Paths are modelled as Python strings: lists of characters. -/
abbrev Path := List Char

/-- The path separator. -/
def sep : Char := '/'

/-- Python `str.lstrip("/")`: drop every leading separator. -/
def pyLstrip (s : Path) : Path := s.dropWhile (fun c => c = sep)

/-- Drop every trailing separator: the right half of Python `str.strip("/")`. -/
def dropTrailSep : Path → Path
  | [] => []
  | c :: cs =>
    match dropTrailSep cs with
    | [] => if c = sep then [] else [c]
    | x :: xs => c :: x :: xs

/-- Python `str.strip("/")`: drop leading and trailing separators. -/
def pyStrip (s : Path) : Path := dropTrailSep (pyLstrip s)

/-- Python `str.split("/")`: total, always returns at least one component,
keeps interior empty components. -/
def pySplit : Path → List Path
  | [] => [[]]
  | c :: cs =>
    match pySplit cs with
    | [] => [[c]]
    | h :: t => if c = sep then [] :: h :: t else (c :: h) :: t

/-- Python `"/".join(...)`. -/
def pyJoin : List Path → Path
  | [] => []
  | [x] => x
  | x :: y :: t => x ++ sep :: pyJoin (y :: t)

/-- posix `os.path.join` restricted to two arguments, as used by the source:
an absolute second argument wins, otherwise the pieces are glued with at
most one separator. -/
def osJoin (a b : Path) : Path :=
  if b.head? = some sep then b
  else if a = [] then b
  else if a.getLast? = some sep then a ++ b
  else a ++ sep :: b

/-- Function `_split_path` from `manager.py`: strip separators, split, pop the first
component as the sentinel; returns (sentinel, remaining segments,
normalised path). -/
def _split_path (p : Path) : Path × List Path × Path :=
  let norm := pyStrip p
  let parts := pySplit norm
  (parts.headD [], parts.tail, norm)

/-- The string `"directory"`. -/
def dirStr : Path := "directory".toList

/-- The string `"json"`. -/
def jsonStr : Path := "json".toList

/-- A record (Python dict model) returned by contents-manager operations:
optional fields stand for the dict keys, `none` for an absent key. -/
structure Rec where
  path : Option Path
  type : Option Path
  name : Option Path
  content : Option (List Rec)
  last_modified : Option Int
  created : Option Int
  format : Option Path
  mimetype : Option Path
  size : Option Int
  writable : Option Bool

/-- The record with every key absent; concrete records are written as
updates of it. -/
def emptyRec : Rec :=
  ⟨none, none, none, none, none, none, none, none, none, none⟩

/-- A Python value as handled by `_fix_paths`: a dict (structured record),
or a non-dict scalar (boolean, string, None). -/
inductive Value where
  | vrec (r : Rec)
  | vbool (b : Bool)
  | vstr (s : Path)
  | vnone

/-- The rewrite of the record's own `path` field in `_fix_paths`
(line `sub["path"] = os.path.join(base_path, sub["path"])`). -/
def fixOwnPath (base_path : Path) (r : Rec) : Rec :=
  match r.path with
  | some p => { r with path := some (osJoin base_path p) }
  | none => r

/-- The per-child rewrite in `_fix_paths`
(line `e["path"] = os.path.join(base_path, e["path"].lstrip("/"))`). -/
def fixChild (base_path : Path) (e : Rec) : Rec :=
  match e.path with
  | some p => { e with path := some (osJoin base_path (pyLstrip p)) }
  | none => e

/-- Function `_fix_paths` from `manager.py`: non-dicts pass through; a dict has its
`path` re-based, and when it is a directory with truthy (non-empty)
content, each child's `path` is re-based with leading separators
stripped. -/
def _fix_paths (sub : Value) (base_path : Path) : Value :=
  match sub with
  | .vrec r =>
    let r1 := fixOwnPath base_path r
    match r1.type, r1.content with
    | some t, some (e :: es) =>
      if t = dirStr then
        .vrec { r1 with content := some ((e :: es).map (fixChild base_path)) }
      else .vrec r1
    | _, _ => .vrec r1
  | v => v

/-- An external backend (a mounted contents manager): an abstract bundle of
the operations the dispatch engine invokes on it.  `get` may fail (raise),
which the root aggregator catches. -/
structure Backend where
  dir_exists : Path → Value
  is_hidden : Path → Value
  file_exists : Path → Value
  exists_ : Path → Value
  get : Path → Except Unit Value
  save : Rec → Path → Value
  update : Rec → Path → Value
  delete : Path → Value
  create_checkpoint : Path → Value
  list_checkpoints : Path → Value
  restore_checkpoint : Path → Path → Value
  delete_checkpoint : Path → Path → Value
  rename : Path → Path → Value

/-- The router's state after construction: the configured virtual-prefix
name `mixed_path` and the mount table `managers` (a name-keyed mapping,
modelled as an association list with distinct keys). -/
structure MState where
  mixed_path : Path
  managers : List (Path × Backend)

/-- Python `dict.get(k, None)` on an association list (first match). -/
def alookup {α : Type} : List (Path × α) → Path → Option α
  | [], _ => none
  | (k, v) :: t, q => if k = q then some v else alookup t q

/-- Function `_get_cm` from `manager.py`: no backend when the sentinel differs from
the virtual prefix or no mount segment is present; otherwise look the
first remaining segment up in the mount table.  The mount name is returned
alongside the backend because the dispatch wrappers reuse it (`_path[0]`)
to build `base_path`. -/
def _get_cm (st : MState) (sentinel : Path) (listpath : List Path) :
    Option (Path × Backend) :=
  match listpath with
  | [] => none
  | h :: _ =>
    if sentinel = st.mixed_path then (alookup st.managers h).map (fun b => (h, b))
    else none

/-- Resolution of a raw path, as every dispatch wrapper performs it:
decompose with `_split_path`, then apply `_get_cm`. -/
def resolvePath (st : MState) (p : Path) : Option (Path × Backend) :=
  _get_cm st (_split_path p).1 (_split_path p).2.1

/-- A mount specification from `filesystem_scheme`: mount name (`root`),
backend class identifier, configuration assignments. -/
structure MountSpec where
  root : Path
  klass : Path
  config : List (Path × Path)
deriving DecidableEq

/-- Construction-time failure of `MixedContentsManager.__init__`. -/
inductive InitError where
  | duplicateMount
deriving DecidableEq

/-- The backend-construction loop of `__init__`: one instance per spec (an
instance is modelled by its spec), keyed by the mount name. -/
def buildManagers (specs : List MountSpec) : List (Path × MountSpec) :=
  specs.map (fun s => (s.root, s))

/-- Scheme handling of the constructor `MixedContentsManager.__init__`: first the duplicate
check (`len(set(roots)) == len(scheme)`), and only on success the
construction loop.  The second component is the trace of backend instances
constructed, in order: it is empty when the check fails, since the check
precedes the loop. -/
def mixedInit (specs : List MountSpec) :
    Except InitError (List (Path × MountSpec)) × List MountSpec :=
  if ((specs.map (fun s => s.root)).dedup).length = specs.length then
    (.ok (buildManagers specs), specs)
  else
    (.error .duplicateMount, [])

/-- The dispatch of `dir_exists` (wrapper `path_dispatch1` plus the method
body): on resolution, call the backend and re-base the result; otherwise
the empty/bare-prefix special case, then the default backend `ddir` on the
rooted normalised path. -/
def mixed_dir_exists (st : MState) (ddir : Path → Value) (p : Path) : Value :=
  match resolvePath st p with
  | some (h, b) =>
    _fix_paths (b.dir_exists (pyJoin (_split_path p).2.1.tail))
      (osJoin (_split_path p).1 h)
  | none =>
    let path := (_split_path p).2.2
    if path = [] ∨ path = st.mixed_path then .vbool true
    else ddir (osJoin [sep] path)

/-- The dispatch of `is_hidden`. -/
def mixed_is_hidden (st : MState) (dhid : Path → Value) (p : Path) : Value :=
  match resolvePath st p with
  | some (h, b) =>
    _fix_paths (b.is_hidden (pyJoin (_split_path p).2.1.tail))
      (osJoin (_split_path p).1 h)
  | none =>
    let path := (_split_path p).2.2
    if path = [] ∨ path = st.mixed_path then .vbool false
    else dhid (osJoin [sep] path)

/-- The dispatch of `file_exists` (wrapper `path_dispatch_kwarg`). -/
def mixed_file_exists (st : MState) (dfile : Path → Value) (p : Path) : Value :=
  match resolvePath st p with
  | some (h, b) =>
    _fix_paths (b.file_exists (pyJoin (_split_path p).2.1.tail))
      (osJoin (_split_path p).1 h)
  | none =>
    let path := (_split_path p).2.2
    if path = [] ∨ path = st.mixed_path then .vbool false
    else dfile (osJoin [sep] path)

/-- The dispatch of `exists`. -/
def mixed_exists (st : MState) (dex : Path → Value) (p : Path) : Value :=
  match resolvePath st p with
  | some (h, b) =>
    _fix_paths (b.exists_ (pyJoin (_split_path p).2.1.tail))
      (osJoin (_split_path p).1 h)
  | none =>
    let path := (_split_path p).2.2
    if path = [] ∨ path = st.mixed_path then .vbool true
    else dex (osJoin [sep] path)

/-- The dispatch of `delete`: the fallback passes the (normalised) path to
the default backend unchanged. -/
def mixed_delete (st : MState) (ddel : Path → Value) (p : Path) : Value :=
  match resolvePath st p with
  | some (h, b) =>
    _fix_paths (b.delete (pyJoin (_split_path p).2.1.tail))
      (osJoin (_split_path p).1 h)
  | none => ddel (_split_path p).2.2

/-- The dispatch of `create_checkpoint`. -/
def mixed_create_checkpoint (st : MState) (dcc : Path → Value) (p : Path) :
    Value :=
  match resolvePath st p with
  | some (h, b) =>
    _fix_paths (b.create_checkpoint (pyJoin (_split_path p).2.1.tail))
      (osJoin (_split_path p).1 h)
  | none => dcc (_split_path p).2.2

/-- The dispatch of `list_checkpoints`. -/
def mixed_list_checkpoints (st : MState) (dlc : Path → Value) (p : Path) :
    Value :=
  match resolvePath st p with
  | some (h, b) =>
    _fix_paths (b.list_checkpoints (pyJoin (_split_path p).2.1.tail))
      (osJoin (_split_path p).1 h)
  | none => dlc (_split_path p).2.2

/-- The dispatch of `save` (wrapper `path_dispatch2`): the model rides
along unchanged; the fallback receives the normalised path. -/
def mixed_save (st : MState) (dsave : Rec → Path → Value) (model : Rec)
    (p : Path) : Value :=
  match resolvePath st p with
  | some (h, b) =>
    _fix_paths (b.save model (pyJoin (_split_path p).2.1.tail))
      (osJoin (_split_path p).1 h)
  | none => dsave model (_split_path p).2.2

/-- Outcome of `update`. -/
inductive UpdResult where
  | crossMountError
  | keyError
  | value (v : Value)
  | defaultUpdate (model : Rec) (p : Path)

/-- Method `update` from `manager.py`: decompose the operation path and the
model's own `path` field, resolve each; different resolutions raise the
cross-mount `ValueError`; a shared mounted backend receives the model and
the path rewritten to their mount-local tails and its result is re-based;
otherwise the default backend gets the original arguments. -/
def mixed_update (st : MState) (model : Rec) (p : Path) : UpdResult :=
  match model.path with
  | none => .keyError
  | some mpath =>
    let man := resolvePath st p
    let m_man := resolvePath st mpath
    if man.map (fun x => x.1) ≠ m_man.map (fun x => x.1) then .crossMountError
    else
      match man with
      | some (h, b) =>
        let base_path := osJoin (_split_path p).1 h
        let model2 := { model with path := some (pyJoin (_split_path mpath).2.1.tail) }
        .value (_fix_paths (b.update model2 (pyJoin (_split_path p).2.1.tail)) base_path)
      | none => .defaultUpdate model p

/-- A named call on the default backend made by the checkpoint fallbacks:
the singular-named operations of the contents-manager contract, and the
plural-named attributes the source actually references. -/
inductive CkptCall where
  | restore_checkpoint (checkpoint_id p : Path)
  | delete_checkpoint (checkpoint_id p : Path)
  | restore_checkpoints (p : Path)
  | delete_checkpoints (p : Path)
deriving DecidableEq

/-- Outcome of a dispatched checkpoint operation: a rebased backend result,
or the default-backend call performed by the fallback, recorded by name
and arguments. -/
inductive CkptOutcome where
  | value (v : Value)
  | defaultCall (c : CkptCall)

/-- The dispatch of `restore_checkpoint` (wrapper `path_dispatch2`): a
resolved backend receives the checkpoint id and the mount-local path; the
fallback body is `super().restore_checkpoints(path)` — the plural-named
attribute, with the checkpoint id dropped. -/
def mixed_restore_checkpoint (st : MState) (checkpoint_id p : Path) :
    CkptOutcome :=
  match resolvePath st p with
  | some (h, b) =>
    .value (_fix_paths (b.restore_checkpoint checkpoint_id (pyJoin (_split_path p).2.1.tail))
      (osJoin (_split_path p).1 h))
  | none => .defaultCall (.restore_checkpoints (_split_path p).2.2)

/-- The dispatch of `delete_checkpoint`: the fallback body is
`super().delete_checkpoints(path)` — plural name, checkpoint id dropped. -/
def mixed_delete_checkpoint (st : MState) (checkpoint_id p : Path) :
    CkptOutcome :=
  match resolvePath st p with
  | some (h, b) =>
    .value (_fix_paths (b.delete_checkpoint checkpoint_id (pyJoin (_split_path p).2.1.tail))
      (osJoin (_split_path p).1 h))
  | none => .defaultCall (.delete_checkpoints (_split_path p).2.2)

/-- Outcome of `rename`: the cross-mount `ValueError`; or (when a manager
is found under the compared key) the backend's rename result followed by
the `AttributeError` that `self.fix_path` — a method that does not exist —
would raise; or the default rename on the original two paths. -/
inductive RenameOutcome where
  | crossMountError
  | backendThenAttrError (sub : Value)
  | defaultRename (old_path new_path : Path)

/-- Wrapper `path_dispatch_rename` applied to `rename`, exactly as the source
unpacks it: `_, _old_path, old_sentinel = _split_path(old_path)` binds
`old_sentinel` to the third component — the full normalised path — so the
guard compares whole normalised paths, and the manager lookup uses the
whole normalised new path as key. -/
def mixed_rename (st : MState) (old_path new_path : Path) : RenameOutcome :=
  let old_parts := _split_path old_path
  let new_parts := _split_path new_path
  let old_sentinel := old_parts.2.2
  let new_sentinel := new_parts.2.2
  if old_sentinel ≠ new_sentinel then .crossMountError
  else
    match alookup st.managers new_sentinel with
    | some b => .backendThenAttrError (b.rename (pyJoin old_parts.2.1) (pyJoin new_parts.2.1))
    | none => .defaultRename old_path new_path

/-- Python `max` on a list of comparables; `none` on the empty list, where
CPython raises `ValueError`. -/
def pyMax : List Int → Option Int
  | [] => none
  | x :: xs => some (xs.foldl max x)

/-- Python `min` on a list of comparables. -/
def pyMin : List Int → Option Int
  | [] => none
  | x :: xs => some (xs.foldl min x)

/-- A call-time Python exception of `get`. -/
inductive PyErr where
  | valueError
  | typeError
  | backendError
deriving DecidableEq

/-- One iteration of the root-aggregation loop of `get`: a successful
dict-valued backend fetch of the mount root has its content nulled, its
name set to the mount name and its path re-based, and is appended to the
aggregate's children; its `last_modified` value, when the key is present,
is appended to the timestamp list.  Any failure inside the `try` block
(a raising fetch, a non-dict result, a missing `last_modified` key after
the child was already appended) is swallowed by the bare `except`. -/
def aggStep (mp : Path) (acc : List Rec × List Int) (m : Path × Backend) :
    List Rec × List Int :=
  match m.2.get [sep] with
  | .ok (.vrec d) =>
    let d2 := { d with content := none, name := some m.1, path := some (osJoin mp m.1) }
    (acc.1 ++ [d2],
     acc.2 ++ (match d.last_modified with | some t => [t] | none => []))
  | _ => acc

/-- The synthetic directory entry appended for the virtual prefix by the
empty-path branch of `get`. -/
def mixedEntry (mp : Path) : Rec :=
  { emptyRec with path := some mp, type := some dirStr, name := some mp }

/-- The body of `get` (after the dispatch wrapper found no backend), on the
normalised path: the filesystem root gains a synthetic entry for the
virtual prefix; the bare virtual prefix is answered by the root
aggregator, whose `last_modified`/`created` are `max`/`min` of the
collected timestamps (a `ValueError` when none were collected); any other
path goes to the default backend rooted with a leading separator. -/
def mixed_get_body (st : MState) (dget : Path → Value) (p : Path) :
    Except PyErr Value :=
  if p = [] then
    match dget [sep] with
    | .vrec r =>
      match r.content with
      | some l => .ok (.vrec { r with content := some (l ++ [mixedEntry st.mixed_path]) })
      | none => .error .typeError
    | _ => .error .typeError
  else if p = st.mixed_path then
    let res := st.managers.foldl (aggStep st.mixed_path) ([], [])
    match pyMax res.2, pyMin res.2 with
    | some mx, some mn =>
      .ok (.vrec { path := some st.mixed_path, type := some dirStr,
                   name := some st.mixed_path, content := some res.1,
                   last_modified := some mx, created := some mn,
                   format := some jsonStr, mimetype := none, size := none,
                   writable := some false })
    | _, _ => .error .valueError
  else
    .ok (dget (osJoin [sep] p))

/-- The dispatch of `get`: a resolved backend's fetch result is re-based
(its failure propagates); otherwise the body runs on the normalised path. -/
def mixed_get (st : MState) (dget : Path → Value) (p : Path) :
    Except PyErr Value :=
  match resolvePath st p with
  | some (h, b) =>
    match b.get (pyJoin (_split_path p).2.1.tail) with
    | .ok v => .ok (_fix_paths v (osJoin (_split_path p).1 h))
    | .error _ => .error .backendError
  | none => mixed_get_body st dget (_split_path p).2.2

/-- The aggregation loop's observable effect on one mount: the child entry
it contributes to the synthetic root's content (`none` when its fetch
fails or returns a non-dict). -/
def aggChild (mp : Path) (m : Path × Backend) : Option Rec :=
  match m.2.get [sep] with
  | .ok (.vrec d) =>
    some { d with content := none, name := some m.1, path := some (osJoin mp m.1) }
  | _ => none

/-- The timestamp one mount contributes to the aggregation (`none` when
its fetch fails, returns a non-dict, or lacks the `last_modified` key). -/
def aggTime (m : Path × Backend) : Option Int :=
  match m.2.get [sep] with
  | .ok (.vrec d) => d.last_modified
  | _ => none

/-- The children of the synthetic root: one entry per mount whose root
fetch succeeded with a dict, in mount order. -/
def aggContent (st : MState) : List Rec :=
  st.managers.filterMap (aggChild st.mixed_path)

/-- The timestamps collected during root aggregation. -/
def aggLM (st : MState) : List Int :=
  st.managers.filterMap aggTime

/-! Concrete fixtures used by witnesses and counterexamples. -/

/-- A backend whose every operation returns None and whose `get` raises. -/
def b0 : Backend :=
  ⟨fun _ => .vnone, fun _ => .vnone, fun _ => .vnone, fun _ => .vnone,
   fun _ => .error (), fun _ _ => .vnone, fun _ _ => .vnone, fun _ => .vnone,
   fun _ => .vnone, fun _ => .vnone, fun _ _ => .vnone, fun _ _ => .vnone,
   fun _ _ => .vnone⟩

/-- A backend whose `update` echoes the path it was given. -/
def bEcho : Backend := { b0 with update := fun _ q => .vstr q }

/-- A backend whose root fetch succeeds with `last_modified = 1`. -/
def bT1 : Backend :=
  { b0 with get :=
      fun _ => .ok (.vrec { emptyRec with last_modified := some 1, created := some 1 }) }

/-- Two mounts under the virtual prefix `mixed`. -/
def st0 : MState :=
  ⟨"mixed".toList, [("space1".toList, b0), ("space2".toList, b0)]⟩

/-- Mounts for the update witness: `space1` echoes update paths. -/
def stU : MState :=
  ⟨"mixed".toList, [("space1".toList, bEcho), ("space2".toList, b0)]⟩

/-- A model whose own path lies under mount `space2`. -/
def modelU : Rec := { emptyRec with path := some "mixed/space2/z".toList }

/-- A model whose own path lies under mount `space1`. -/
def modelV : Rec := { emptyRec with path := some "mixed/space1/z".toList }

/-- Aggregation witness state: `space1` succeeds, `space2` raises. -/
def st7 : MState :=
  ⟨"datahub".toList, [("space1".toList, bT1), ("space2".toList, b0)]⟩

/-- A router configured with no mounts at all. -/
def st10 : MState := ⟨"datahub".toList, []⟩

/-- Mount specs for the construction witness. -/
def mspec1 : MountSpec := ⟨"space1".toList, "cm.ClassA".toList, []⟩

/-- A second, distinctly named mount spec. -/
def mspec2 : MountSpec := ⟨"space2".toList, "cm.ClassB".toList, []⟩

/-- A child record with an absolute backend-local path. -/
def wchild : Rec := { emptyRec with path := some "/c".toList }

/-- A directory record listing `wchild`. -/
def wdir : Rec := { emptyRec with type := some dirStr, content := some [wchild] }

/-!  ## Theorems  -/

theorem pySplit_ne_nil (s : Path) : pySplit s ≠ [] := by
  cases s with
  | nil => simp [pySplit]
  | cons c cs =>
    simp only [pySplit]
    cases h : pySplit cs with
    | nil => simp
    | cons a t => by_cases hc : c = sep <;> simp [hc]

theorem pyJoin_pySplit (s : Path) : pyJoin (pySplit s) = s := by
  induction s with
  | nil => rfl
  | cons c cs ih =>
    simp only [pySplit]
    cases h : pySplit cs with
    | nil => exact absurd h (pySplit_ne_nil cs)
    | cons a t =>
      rw [h] at ih
      by_cases hc : c = sep
      · subst hc
        simp only [if_pos rfl, pyJoin]
        simpa using ih
      · simp only [if_neg hc]
        cases t with
        | nil =>
          simp only [pyJoin] at ih ⊢
          rw [ih]
        | cons b t2 =>
          simp only [pyJoin] at ih ⊢
          rw [List.cons_append, ih]

/-- Claim C4: path decomposition is total, and rejoining the leading
segment with the remaining segments using the separator reproduces the
normalised form of the input (the input stripped of leading and trailing
separators), which is also the third component `_split_path` returns. -/
theorem split_path_rejoin (p : Path) :
    pyJoin ((_split_path p).1 :: (_split_path p).2.1) = pyStrip p
    ∧ (_split_path p).2.2 = pyStrip p := by
  refine ⟨?_, rfl⟩
  have h := pyJoin_pySplit (pyStrip p)
  have hne := pySplit_ne_nil (pyStrip p)
  cases hp : pySplit (pyStrip p) with
  | nil => exact absurd hp hne
  | cons a t =>
    rw [hp] at h
    simpa [_split_path, hp] using h

theorem head_ne_self_of_pySplit_cons2 (s a b : Path) (t : List Path)
    (hp : pySplit s = a :: b :: t) : a ≠ s := by
  intro he
  have h := pyJoin_pySplit s
  rw [hp] at h
  subst he
  simp only [pyJoin] at h
  have := congrArg List.length h
  simp at this

theorem resolvePath_self (st : MState)
    (hstrip : pyStrip st.mixed_path = st.mixed_path) :
    resolvePath st st.mixed_path = none := by
  have hne := pySplit_ne_nil (pyStrip st.mixed_path)
  cases hp : pySplit (pyStrip st.mixed_path) with
  | nil => exact absurd hp hne
  | cons a t =>
    cases t with
    | nil => simp [resolvePath, _split_path, hp, _get_cm]
    | cons b t2 =>
      have hane : a ≠ st.mixed_path := by
        have := head_ne_self_of_pySplit_cons2 (pyStrip st.mixed_path) a b t2 hp
        rw [hstrip] at this
        exact this
      simp [resolvePath, _split_path, hp, _get_cm, hane]

/-- Claim C8: on the empty path and on the bare virtual-prefix path the
dispatcher resolves no backend, and — for every mount table and every
default-backend behaviour, hence without delegating to any backend —
`dir_exists` and `exists` answer true while `file_exists` and `is_hidden`
answer false. -/
theorem prefix_alone_semantics (st : MState) (ddir dhid dfile dex : Path → Value)
    (hstrip : pyStrip st.mixed_path = st.mixed_path) :
    mixed_dir_exists st ddir [] = .vbool true
    ∧ mixed_dir_exists st ddir st.mixed_path = .vbool true
    ∧ mixed_exists st dex [] = .vbool true
    ∧ mixed_exists st dex st.mixed_path = .vbool true
    ∧ mixed_file_exists st dfile [] = .vbool false
    ∧ mixed_file_exists st dfile st.mixed_path = .vbool false
    ∧ mixed_is_hidden st dhid [] = .vbool false
    ∧ mixed_is_hidden st dhid st.mixed_path = .vbool false := by
  have hr0 : resolvePath st [] = none := rfl
  have hr := resolvePath_self st hstrip
  have hnorm : (_split_path st.mixed_path).2.2 = st.mixed_path := hstrip
  have hnorm0 : (_split_path ([] : Path)).2.2 = [] := rfl
  refine ⟨?_, ?_, ?_, ?_, ?_, ?_, ?_, ?_⟩ <;>
    simp [mixed_dir_exists, mixed_exists, mixed_file_exists, mixed_is_hidden,
      hr0, hr, hnorm, hnorm0]

/-- Claim C8 witness: the concrete two-mount router at the bare prefix. -/
theorem prefix_alone_semantics_w :
    mixed_dir_exists st0 (fun _ => .vnone) "mixed".toList = .vbool true
    ∧ mixed_file_exists st0 (fun _ => .vnone) "mixed".toList = .vbool false := by
  have h := prefix_alone_semantics st0 (fun _ => .vnone) (fun _ => .vnone)
    (fun _ => .vnone) (fun _ => .vnone) (by decide)
  exact ⟨h.2.1, h.2.2.2.2.2.1⟩

/-- Claim C1 (code bug): with mounts `space1` and `space2` under prefix
`mixed`, renaming `mixed/space1/x` to `mixed/space2/y` raises the
cross-mount error, but so does the same-mount rename of `mixed/space1/x`
to `mixed/space1/y`, because the dispatcher unpacks `_split_path` in the
wrong order and compares whole normalised paths instead of mount
sentinels; it never delegates to `space1`'s backend with `x` and `y`. -/
theorem rename_guard_behavior :
    mixed_rename st0 "mixed/space1/x".toList "mixed/space2/y".toList
      = .crossMountError
    ∧ mixed_rename st0 "mixed/space1/x".toList "mixed/space1/y".toList
      = .crossMountError :=
  ⟨rfl, rfl⟩

/-- Claim C3 (code bug): at the non-resolving path `notes/a.ipynb` the
checkpoint fallbacks invoke the plural-named default-backend attributes
`restore_checkpoints`/`delete_checkpoints` with only the path, dropping
the checkpoint identifier, instead of the contract operations
`restore_checkpoint`/`delete_checkpoint` with identifier and path. -/
theorem checkpoint_fallback_calls :
    mixed_restore_checkpoint st0 "cp1".toList "notes/a.ipynb".toList
      = .defaultCall (.restore_checkpoints "notes/a.ipynb".toList)
    ∧ mixed_delete_checkpoint st0 "cp1".toList "notes/a.ipynb".toList
      = .defaultCall (.delete_checkpoints "notes/a.ipynb".toList)
    ∧ CkptCall.restore_checkpoints "notes/a.ipynb".toList
      ≠ CkptCall.restore_checkpoint "cp1".toList "notes/a.ipynb".toList :=
  ⟨rfl, rfl, by decide⟩

theorem pyLstrip_head (s : Path) : (pyLstrip s).head? ≠ some sep := by
  induction s with
  | nil => simp [pyLstrip]
  | cons c cs ih =>
    by_cases hc : c = sep
    · simpa [pyLstrip, List.dropWhile_cons, hc] using ih
    · simp [pyLstrip, List.dropWhile_cons, hc]

theorem dropTrailSep_head (l : Path) :
    dropTrailSep l = [] ∨ (dropTrailSep l).head? = l.head? := by
  cases l with
  | nil => exact Or.inl rfl
  | cons c cs =>
    simp only [dropTrailSep]
    cases h : dropTrailSep cs with
    | nil =>
      by_cases hc : c = sep
      · exact Or.inl (by simp [hc])
      · exact Or.inr (by simp [hc])
    | cons x xs => exact Or.inr rfl

theorem pyStrip_head (s : Path) : (pyStrip s).head? ≠ some sep := by
  unfold pyStrip
  rcases dropTrailSep_head (pyLstrip s) with h | h
  · rw [h]; simp
  · rw [h]; exact pyLstrip_head s

theorem osJoin_root (q : Path) (hq : q.head? ≠ some sep) :
    osJoin [sep] q = sep :: q := by
  unfold osJoin
  rw [if_neg hq, if_neg (by simp), if_pos (by simp)]
  rfl

/-- Claim C9 counterexample: the fallback does not receive the original,
unmodified path.  With an echoing default backend, `delete` on `/a/`
reaches the default with the stripped path `a`, and `dir_exists` on `a`
reaches the default with the rooted path `/a`. -/
theorem fallback_original_path_cex :
    mixed_delete st0 (fun q => .vstr q) "/a/".toList = .vstr "a".toList
    ∧ ("a".toList : Path) ≠ "/a/".toList
    ∧ mixed_dir_exists st0 (fun q => .vstr q) "a".toList = .vstr "/a".toList
    ∧ ("/a".toList : Path) ≠ "a".toList :=
  ⟨rfl, by decide, rfl, by decide⟩

/-- Claim C9 (amended): when no backend resolves, each dispatched
operation invokes the equivalent default-backend operation on the
normalised path — the path stripped of leading and trailing separators;
the existence/hidden checks and `get` additionally root it with one
leading separator — and returns that result directly, with no response
rewriting, for every default-backend behaviour. -/
theorem fallback_normalized_path (st : MState)
    (ddel dcc dlc ddir dhid dfile dex dget : Path → Value)
    (dsave : Rec → Path → Value) (model : Rec) (p : Path)
    (hres : resolvePath st p = none) :
    mixed_delete st ddel p = ddel (pyStrip p)
    ∧ mixed_create_checkpoint st dcc p = dcc (pyStrip p)
    ∧ mixed_list_checkpoints st dlc p = dlc (pyStrip p)
    ∧ mixed_save st dsave model p = dsave model (pyStrip p)
    ∧ (pyStrip p ≠ [] → pyStrip p ≠ st.mixed_path →
        mixed_dir_exists st ddir p = ddir (sep :: pyStrip p)
        ∧ mixed_is_hidden st dhid p = dhid (sep :: pyStrip p)
        ∧ mixed_file_exists st dfile p = dfile (sep :: pyStrip p)
        ∧ mixed_exists st dex p = dex (sep :: pyStrip p)
        ∧ mixed_get st dget p = .ok (dget (sep :: pyStrip p))) := by
  have hnorm : (_split_path p).2.2 = pyStrip p := rfl
  have hroot := osJoin_root (pyStrip p) (pyStrip_head p)
  refine ⟨?_, ?_, ?_, ?_, fun h1 h2 => ?_⟩
  · simp [mixed_delete, hres, hnorm]
  · simp [mixed_create_checkpoint, hres, hnorm]
  · simp [mixed_list_checkpoints, hres, hnorm]
  · simp [mixed_save, hres, hnorm]
  · refine ⟨?_, ?_, ?_, ?_, ?_⟩ <;>
      simp [mixed_dir_exists, mixed_is_hidden, mixed_file_exists,
        mixed_exists, mixed_get, mixed_get_body, hres, hnorm, h1, h2, hroot]

/-- Claim C9 amended-theorem witness at a concrete non-resolving path. -/
theorem fallback_normalized_path_w :
    mixed_delete st0 (fun q => .vstr q) "docs/x.txt".toList
      = .vstr "docs/x.txt".toList
    ∧ mixed_dir_exists st0 (fun q => .vstr q) "docs/x.txt".toList
      = .vstr "/docs/x.txt".toList := by
  have h := fallback_normalized_path st0 (fun q => .vstr q) (fun q => .vstr q)
    (fun q => .vstr q) (fun q => .vstr q) (fun q => .vstr q) (fun q => .vstr q)
    (fun q => .vstr q) (fun q => .vstr q) (fun _ q => .vstr q) emptyRec
    "docs/x.txt".toList rfl
  exact ⟨h.1, (h.2.2.2.2 (by decide) (by decide)).1⟩

theorem schemeOk_iff (specs : List MountSpec) :
    ((specs.map (fun s => s.root)).dedup).length = specs.length
      ↔ (specs.map (fun s => s.root)).Nodup := by
  constructor
  · intro h
    have hsub := List.dedup_sublist (specs.map (fun s => s.root))
    have hlen : (specs.map (fun s => s.root)).dedup.length
        = (specs.map (fun s => s.root)).length := by
      rw [h, List.length_map]
    rw [← hsub.eq_of_length hlen]
    exact List.nodup_dedup _
  · intro h
    rw [List.dedup_eq_self.mpr h, List.length_map]

theorem alookup_buildManagers (specs : List MountSpec)
    (hn : (specs.map (fun s => s.root)).Nodup)
    (s : MountSpec) (hs : s ∈ specs) :
    alookup (buildManagers specs) s.root = some s := by
  induction specs with
  | nil => cases hs
  | cons a t ih =>
    rw [List.map_cons, List.nodup_cons] at hn
    rcases List.mem_cons.mp hs with rfl | hs2
    · simp [buildManagers, alookup]
    · have hne : a.root ≠ s.root := fun he => hn.1 (he ▸ List.mem_map_of_mem _ hs2)
      simpa [buildManagers, alookup, hne] using ih hn.2 hs2

/-- Claim C5: duplicate mount names make construction fail with the
duplicate-mount error and leave the backend-construction trace empty (the
check precedes the construction loop, so no backend is instantiated);
with pairwise-distinct names construction succeeds and every mount name
maps to its own spec's instance. -/
theorem init_duplicate_check (specs : List MountSpec) :
    (¬ (specs.map (fun s => s.root)).Nodup →
        mixedInit specs = (.error .duplicateMount, []))
    ∧ ((specs.map (fun s => s.root)).Nodup →
        (mixedInit specs).1 = .ok (buildManagers specs)
        ∧ ∀ s ∈ specs, alookup (buildManagers specs) s.root = some s) := by
  constructor
  · intro h
    have hc : ¬ ((specs.map (fun s => s.root)).dedup).length = specs.length :=
      fun hc => h ((schemeOk_iff specs).mp hc)
    simp [mixedInit, hc]
  · intro h
    refine ⟨?_, fun s hs => alookup_buildManagers specs h s hs⟩
    have hc := (schemeOk_iff specs).mpr h
    simp [mixedInit, hc]

/-- Claim C5 witness: a duplicated spec list fails with no instance
constructed; the distinct list succeeds and resolves `space2`. -/
theorem init_duplicate_check_w :
    mixedInit [mspec1, mspec1] = (.error .duplicateMount, [])
    ∧ (mixedInit [mspec1, mspec2]).1 = .ok (buildManagers [mspec1, mspec2])
    ∧ alookup (buildManagers [mspec1, mspec2]) mspec2.root = some mspec2 :=
  ⟨(init_duplicate_check [mspec1, mspec1]).1 (by decide),
   ((init_duplicate_check [mspec1, mspec2]).2 (by decide)).1,
   ((init_duplicate_check [mspec1, mspec2]).2 (by decide)).2 mspec2 (by decide)⟩

theorem fixOwnPath_type (base : Path) (r : Rec) :
    (fixOwnPath base r).type = r.type := by
  cases h : r.path <;> simp [fixOwnPath, h]

theorem fixOwnPath_content (base : Path) (r : Rec) :
    (fixOwnPath base r).content = r.content := by
  cases h : r.path <;> simp [fixOwnPath, h]

/-- Claim C6: the response rewriter leaves non-dict values unchanged;
re-bases a record's `path` (`a/b` under `mixed/space1` becomes
`mixed/space1/a/b`); on a directory record with non-empty content it maps
the child rewrite over the children, where a child with a `path` gets the
base joined to its path with leading separators stripped (`/c` becomes
`mixed/space1/c`) while its own `content` and `type` are untouched — no
recursion into grandchildren. -/
theorem fix_paths_spec :
    (∀ (b : Bool) (base : Path), _fix_paths (.vbool b) base = .vbool b)
    ∧ (∀ (s base : Path), _fix_paths (.vstr s) base = .vstr s)
    ∧ (∀ base : Path, _fix_paths .vnone base = .vnone)
    ∧ _fix_paths (.vrec { emptyRec with path := some "a/b".toList })
        "mixed/space1".toList
        = .vrec { emptyRec with path := some "mixed/space1/a/b".toList }
    ∧ (∀ (base : Path) (r : Rec) (l : List Rec),
        r.type = some dirStr → r.content = some l → l ≠ [] →
        _fix_paths (.vrec r) base
          = .vrec { fixOwnPath base r with content := some (l.map (fixChild base)) })
    ∧ (∀ (base : Path) (e : Rec) (cp : Path), e.path = some cp →
        fixChild base e = { e with path := some (osJoin base (pyLstrip cp)) })
    ∧ (∀ (base : Path) (e : Rec),
        (fixChild base e).content = e.content ∧ (fixChild base e).type = e.type)
    ∧ fixChild "mixed/space1".toList wchild
        = { emptyRec with path := some "mixed/space1/c".toList } := by
  refine ⟨fun b base => rfl, fun s base => rfl, fun base => rfl, rfl,
    ?_, ?_, ?_, rfl⟩
  · intro base r l ht hc hl
    cases l with
    | nil => exact absurd rfl hl
    | cons e es =>
      have ht1 : (fixOwnPath base r).type = some dirStr := by
        rw [fixOwnPath_type]; exact ht
      have hc1 : (fixOwnPath base r).content = some (e :: es) := by
        rw [fixOwnPath_content]; exact hc
      simp [_fix_paths, ht1, hc1]
  · intro base e cp h
    simp [fixChild, h]
  · intro base e
    cases h : e.path <;> simp [fixChild, h]

/-- Claim C6 witness: a non-dict passes through; the directory `wdir`
gets its single child rewritten. -/
theorem fix_paths_spec_w :
    _fix_paths (.vbool true) "mixed/space1".toList = .vbool true
    ∧ _fix_paths (.vrec wdir) "mixed/space1".toList
      = .vrec { fixOwnPath "mixed/space1".toList wdir with
                content := some ([wchild].map (fixChild "mixed/space1".toList)) } :=
  ⟨fix_paths_spec.1 true "mixed/space1".toList,
   fix_paths_spec.2.2.2.2.1 "mixed/space1".toList wdir [wchild] rfl rfl (by simp)⟩

theorem resolvePath_sentinel (st : MState) (p : Path) (x : Path × Backend)
    (h : resolvePath st p = some x) : (_split_path p).1 = st.mixed_path := by
  unfold resolvePath _get_cm at h
  cases hl : (_split_path p).2.1 with
  | nil => rw [hl] at h; cases h
  | cons a t =>
    rw [hl] at h
    by_cases hs : (_split_path p).1 = st.mixed_path
    · exact hs
    · simp [hs] at h

/-- Claim C2: `update` resolves the operation path and the model's own
path independently; differing resolutions raise the cross-mount error; a
shared mounted backend receives the model and the operation path rewritten
to the segments after the mount name and its result goes through the
response rewriter with base `mixed_path/mount`; when neither resolves the
default backend's `update` gets the original model and path. -/
theorem update_dispatch_spec (st : MState) (model : Rec) (p mp : Path)
    (hmp : model.path = some mp) :
    ((resolvePath st p).map (fun x => x.1)
        ≠ (resolvePath st mp).map (fun x => x.1) →
      mixed_update st model p = .crossMountError)
    ∧ (∀ n b, resolvePath st p = some (n, b) → resolvePath st mp = some (n, b) →
      mixed_update st model p
        = .value (_fix_paths
            (b.update { model with path := some (pyJoin (_split_path mp).2.1.tail) }
              (pyJoin (_split_path p).2.1.tail))
            (osJoin st.mixed_path n)))
    ∧ (resolvePath st p = none → resolvePath st mp = none →
      mixed_update st model p = .defaultUpdate model p) := by
  refine ⟨?_, ?_, ?_⟩
  · intro hne
    simp [mixed_update, hmp, hne]
  · intro n b h1 h2
    have hsent := resolvePath_sentinel st p (n, b) h1
    have heq : (resolvePath st p).map (fun x => x.1)
        = (resolvePath st mp).map (fun x => x.1) := by rw [h1, h2]
    simp [mixed_update, hmp, h1, h2, heq, hsent]
  · intro h1 h2
    simp [mixed_update, hmp, h1, h2]

/-- Claim C2 witness: with mounts `space1`, `space2`, updating a
`space2`-owned model at a `space1` path is rejected; with both sides under
`space1` the backend receives the mount-local paths (`x` echoes back). -/
theorem update_dispatch_spec_w :
    mixed_update stU modelU "mixed/space1/x".toList = .crossMountError
    ∧ mixed_update stU modelV "mixed/space1/x".toList
      = .value (.vstr "x".toList) :=
  ⟨(update_dispatch_spec stU modelU "mixed/space1/x".toList
      "mixed/space2/z".toList rfl).1 (by decide),
   (update_dispatch_spec stU modelV "mixed/space1/x".toList
      "mixed/space1/z".toList rfl).2.1 "space1".toList bEcho rfl rfl⟩

theorem foldl_aggStep (mp : Path) (ms : List (Path × Backend))
    (c0 : List Rec) (l0 : List Int) :
    ms.foldl (aggStep mp) (c0, l0)
      = (c0 ++ ms.filterMap (aggChild mp), l0 ++ ms.filterMap aggTime) := by
  induction ms generalizing c0 l0 with
  | nil => simp
  | cons m t ih =>
    rw [List.foldl_cons]
    cases hg : m.2.get [sep] with
    | error e =>
      simp [aggStep, aggChild, aggTime, hg, List.filterMap_cons, ih c0 l0]
    | ok v =>
      cases v with
      | vrec d =>
        cases hlm : d.last_modified with
        | none =>
          simp [aggStep, aggChild, aggTime, hg, hlm, List.filterMap_cons, ih]
        | some ts =>
          simp [aggStep, aggChild, aggTime, hg, hlm, List.filterMap_cons, ih]
      | vbool b =>
        simp [aggStep, aggChild, aggTime, hg, List.filterMap_cons, ih c0 l0]
      | vstr s =>
        simp [aggStep, aggChild, aggTime, hg, List.filterMap_cons, ih c0 l0]
      | vnone =>
        simp [aggStep, aggChild, aggTime, hg, List.filterMap_cons, ih c0 l0]

theorem managers_fold (st : MState) :
    st.managers.foldl (aggStep st.mixed_path) ([], [])
      = (aggContent st, aggLM st) := by
  rw [foldl_aggStep]
  simp [aggContent, aggLM]

/-- Claim C7: fetching the bare virtual prefix yields the synthetic
directory whose children are exactly the entries of the mounts whose root
fetch succeeded — a raising mount is silently omitted — and whose
`last_modified` and `created` are the maximum and minimum of the
timestamps those successes contributed. -/
theorem root_aggregation_spec (st : MState) (dget : Path → Value)
    (hmp : st.mixed_path ≠ []) (hstrip : pyStrip st.mixed_path = st.mixed_path)
    (hne : aggLM st ≠ []) :
    mixed_get st dget st.mixed_path
      = .ok (.vrec { path := some st.mixed_path, type := some dirStr,
                     name := some st.mixed_path,
                     content := some (aggContent st),
                     last_modified := pyMax (aggLM st),
                     created := pyMin (aggLM st),
                     format := some jsonStr, mimetype := none, size := none,
                     writable := some false }) := by
  have hres := resolvePath_self st hstrip
  simp only [mixed_get, hres]
  rw [show (_split_path st.mixed_path).2.2 = st.mixed_path from hstrip]
  unfold mixed_get_body
  rw [if_neg hmp, if_pos rfl, managers_fold]
  cases hl : aggLM st with
  | nil => exact absurd hl hne
  | cons a t => simp [pyMax, pyMin]

/-- Claim C7 witness: mount `space1` succeeds with timestamp 1, `space2`
raises and is omitted; the aggregate carries `space1` alone with
`last_modified = created = 1`. -/
theorem root_aggregation_spec_w :
    mixed_get st7 (fun _ => .vnone) "datahub".toList
      = .ok (.vrec { path := some "datahub".toList, type := some dirStr,
                     name := some "datahub".toList,
                     content := some [{ emptyRec with
                        last_modified := some 1, created := some 1,
                        name := some "space1".toList,
                        path := some "datahub/space1".toList }],
                     last_modified := some 1, created := some 1,
                     format := some jsonStr, mimetype := none, size := none,
                     writable := some false }) :=
  root_aggregation_spec st7 (fun _ => .vnone) (by decide) rfl (by decide)

/-- Claim C10: when no mount's root fetch succeeds — here, with the mount
list empty — the bare-prefix `get` raises the `ValueError` that Python's
`max` produces on the empty timestamp list, instead of returning a
synthetic directory record. -/
theorem empty_aggregate_value_error (st : MState) (dget : Path → Value)
    (hmp : st.mixed_path ≠ []) (hstrip : pyStrip st.mixed_path = st.mixed_path)
    (hall : ∀ m ∈ st.managers, m.2.get [sep] = .error ()) :
    mixed_get st dget st.mixed_path = .error .valueError := by
  have hres := resolvePath_self st hstrip
  have hlm : aggLM st = [] := by
    rw [aggLM, List.filterMap_eq_nil_iff]
    intro m hm
    simp [aggTime, hall m hm]
  simp only [mixed_get, hres]
  rw [show (_split_path st.mixed_path).2.2 = st.mixed_path from hstrip]
  unfold mixed_get_body
  rw [if_neg hmp, if_pos rfl, managers_fold, hlm]
  rfl

/-- Claim C10 witness: the router with an empty mount list raises on the
bare prefix. -/
theorem empty_aggregate_value_error_w :
    mixed_get st10 (fun _ => .vnone) "datahub".toList = .error .valueError :=
  empty_aggregate_value_error st10 (fun _ => .vnone) (by decide) rfl
    (fun m hm => absurd hm (List.not_mem_nil m))

end EGI
